import Mathlib

/-!
Verification of the temperature-alert daemon (jwm4/temperature_alert).

Shallow embedding of the daemon's core: the rolling 24h history store
(`update_history` / `get_24h_stats` from legacy/temperature_alert.py), the
scheduler slot latch (`main` loop), the forecast reduction
(legacy `check_weather_and_alert` and tools/forecast.py `get_forecast`),
the sensor reader (tools/temperature.py `get_current_temperatures` /
`_parse_temperature`), the device locator (`find_ecowitt_device`), and the
alert decision.

Modelling conventions: wall-clock instants are integers (seconds for the
history store, hours for forecast series); temperatures are rationals;
Python dicts are association lists in insertion order; fallible I/O is an
`Option` argument (`none` = request failed / exception caught at the
boundary, exactly the paths that the source converts to an empty or `None`
result).
-/

namespace TemperatureAlert

/-- Association-list lookup (first match wins), the model of Python dict
indexing used throughout. -/
def alookup {κ α : Type} [DecidableEq κ] : List (κ × α) → κ → Option α
  | [], _ => none
  | (k, v) :: rest, n => if k = n then some v else alookup rest n

/-- Association-list update: replace the first binding of `n`, or append a
new binding (Python dict assignment keeps insertion order). -/
def aset {κ α : Type} [DecidableEq κ] : List (κ × α) → κ → α → List (κ × α)
  | [], n, v => [(n, v)]
  | (k, w) :: rest, n, v => if k = n then (k, v) :: rest else (k, w) :: aset rest n v

/-! ## History store (legacy/temperature_alert.py lines 52-167)

`HISTORY` is `{sensor_name: [(timestamp, temp_float), ...]}`; `update_history`
takes `now` once, appends `(now, temp)` for every reading of the call and
prunes each touched sensor's list to entries strictly newer than
`now - 24h`; `get_24h_stats` takes argmin/argmax by temperature over each
non-empty stored list (Python `min`/`max` return the first extremal
element). -/

/-- One stored reading: (timestamp in seconds, temperature in F). -/
abbrev Entry : Type := ℤ × ℚ

/-- The `HISTORY` dict: sensor name to list of readings. -/
abbrev History : Type := List (String × List Entry)

/-- Twenty-four hours in seconds, the pruning window of `update_history`. -/
def window : ℤ := 86400

/-- Stored readings of one sensor (`HISTORY[name]`, defaulting to `[]` as the
`defaultdict` does). -/
def lookupD (h : History) (name : String) : List Entry :=
  (alookup h name).getD []

/-- Body of the `update_history` loop for a single `(name, temp)` item:
append `(now, temp)` then keep only entries with timestamp `> now - 24h`. -/
def recordOne (h : History) (now : ℤ) (name : String) (temp : ℚ) : History :=
  aset h name ((lookupD h name ++ [(now, temp)]).filter (fun e => now - window < e.1))

/-- Model of `update_history(current_temps)`: `now` is taken once at entry
and shared by every appended reading; items are processed in order. -/
def update_history (h : History) (temps : List (String × ℚ)) (now : ℤ) : History :=
  match temps with
  | [] => h
  | (n, t) :: rest => update_history (recordOne h now n t) rest now

/-- Python `min(readings, key=lambda x: x[1])`: first reading with minimal
temperature (strict `<` keeps the earlier one on ties). -/
def argminTemp : List Entry → Option Entry
  | [] => none
  | e :: rest => some (rest.foldl (fun best x => if x.2 < best.2 then x else best) e)

/-- Python `max(readings, key=lambda x: x[1])`: first reading with maximal
temperature. -/
def argmaxTemp : List Entry → Option Entry
  | [] => none
  | e :: rest => some (rest.foldl (fun best x => if x.2 > best.2 then x else best) e)

/-- Model of `get_24h_stats()`: per-sensor `(lows, highs)` over whatever is
stored, skipping sensors with an empty list. Note that it does not consult
the clock and performs no pruning of its own. -/
def get_24h_stats (h : History) : List (String × Entry) × List (String × Entry) :=
  (h.filterMap (fun p => (argminTemp p.2).map (fun e => (p.1, e))),
   h.filterMap (fun p => (argmaxTemp p.2).map (fun e => (p.1, e))))

/-- Timestamps of a stored list are non-decreasing. -/
def tsSorted (l : List Entry) : Prop := l.Pairwise (fun a b => a.1 ≤ b.1)

/-! ## Scheduler slot latch (legacy/temperature_alert.py `main`, lines 325-343) -/

/-- The two daily evaluation slots. -/
inductive Slot
  | morning
  | evening
deriving DecidableEq, Repr

/-- Slot computed from a second-of-day (`sec / 3600 % 24` is the wall-clock
hour, `sec % 3600 / 60` the minute): 20:15 is `evening`, 9:40 is `morning`
(the source checks the evening window first). -/
def slotAt (sec : ℕ) : Option Slot :=
  if sec / 3600 % 24 = 20 ∧ sec % 3600 / 60 = 15 then some Slot.evening
  else if sec / 3600 % 24 = 9 ∧ sec % 3600 / 60 = 40 then some Slot.morning
  else none

/-- One tick of the scheduling logic: given the `last_alert_slot` latch and
the wall-clock second, return the new latch value and the slot evaluated on
this tick (if any). Mirrors: fire and latch when a slot is active and
differs from the latch; reset the latch to `None` on any tick outside both
windows; otherwise do nothing. -/
def schedStep (last : Option Slot) (sec : ℕ) : Option Slot × Option Slot :=
  match slotAt sec with
  | some c => if some c ≠ last then (some c, some c) else (last, none)
  | none => (none, none)

/-- Run the scheduler over a list of tick instants, collecting the slots
that triggered an evaluation, in order. -/
def schedRun (ticks : List ℕ) (last : Option Slot) : List Slot :=
  match ticks with
  | [] => []
  | s :: rest => (schedStep last s).2.toList ++ schedRun rest (schedStep last s).1

/-- Latch value after the scheduler has processed a list of ticks. -/
def latchAfter (ticks : List ℕ) (last : Option Slot) : Option Slot :=
  ticks.foldl (fun l s => (schedStep l s).1) last

/-- A full day of 10-second ticks starting at midnight: 8640 ticks, 10
seconds apart. -/
def dayTicks : List ℕ := List.range' 0 8640 10

/-! ## Forecast reduction

Two implementations exist. The legacy one (`check_weather_and_alert`,
legacy/temperature_alert.py lines 218-234) scans the hourly series with
sentinel accumulators `min_temp = 1000`, `max_temp = -1000`, counting only
points strictly after `now`, capping the count at 24 (later points are
skipped, the loop never breaks). The tool one (tools/forecast.py
`get_forecast`, lines 82-121) uses `inf`-style accumulators (modelled as
`Option`), counts points at or after the start of the current hour, breaks
at the 25th qualifying point, and falls back to the first 24 raw points
when no point qualified. Forecast instants are modelled as integers
(hours), temperatures as rationals. -/

/-- Accumulator update for the minimum: strict `<` so the first occurrence
wins; `none` models the initial `float(inf)` / unset time. -/
def updMin (mn : Option (ℚ × ℤ)) (temp : ℚ) (t : ℤ) : Option (ℚ × ℤ) :=
  match mn with
  | none => some (temp, t)
  | some (m, mt) => if temp < m then some (temp, t) else some (m, mt)

/-- Accumulator update for the maximum: strict `>` so the first occurrence
wins. -/
def updMax (mx : Option (ℚ × ℤ)) (temp : ℚ) (t : ℤ) : Option (ℚ × ℤ) :=
  match mx with
  | none => some (temp, t)
  | some (m, mt) => if temp > m then some (temp, t) else some (m, mt)

/-- Plain min/max linear scan over a series, from given accumulators (the
loop body shared by both implementations, with no time filter). -/
def foldMM : List (ℤ × ℚ) → Option (ℚ × ℤ) → Option (ℚ × ℤ) →
    Option (ℚ × ℤ) × Option (ℚ × ℤ)
  | [], mn, mx => (mn, mx)
  | (t, temp) :: rest, mn, mx => foldMM rest (updMin mn temp t) (updMax mx temp t)

/-- Scan loop of tools/forecast.py `get_forecast`: a point is examined when
its time is at or after the start of the current hour (`nowH`); the 25th
such point breaks the loop; earlier points are skipped without counting. -/
def toolScanAux (nowH : ℤ) : List (ℤ × ℚ) → ℕ → Option (ℚ × ℤ) → Option (ℚ × ℤ) →
    Option (ℚ × ℤ) × Option (ℚ × ℤ)
  | [], _, mn, mx => (mn, mx)
  | (t, temp) :: rest, cnt, mn, mx =>
    if nowH ≤ t then
      if cnt < 24 then toolScanAux nowH rest (cnt + 1) (updMin mn temp t) (updMax mx temp t)
      else (mn, mx)
    else toolScanAux nowH rest cnt mn mx

/-- Reduction of tools/forecast.py `get_forecast`: run the scan; if nothing
qualified (`min_time is None or max_time is None`) fall back to a plain
scan of the first 24 raw points of the series. -/
def toolReduce (nowH : ℤ) (series : List (ℤ × ℚ)) :
    Option (ℚ × ℤ) × Option (ℚ × ℤ) :=
  if (toolScanAux nowH series 0 none none).1 = none ∨
     (toolScanAux nowH series 0 none none).2 = none
  then foldMM (series.take 24) none none
  else toolScanAux nowH series 0 none none

/-- Value of `freeze_warning` in `get_forecast`: `min_temp < freeze_threshold`
when a minimum was found, `False` otherwise. -/
def freezeWarning (red : Option (ℚ × ℤ) × Option (ℚ × ℤ)) (fz : ℚ) : Bool :=
  match red.1 with
  | some (m, _) => decide (m < fz)
  | none => false

/-- Value of `heat_warning` in `get_forecast`. -/
def heatWarning (red : Option (ℚ × ℤ) × Option (ℚ × ℤ)) (ht : ℚ) : Bool :=
  match red.2 with
  | some (m, _) => decide (m > ht)
  | none => false

/-- Legacy scan state: `(min_temp, min_time, max_temp, max_time)` with the
source's sentinels 1000 / -1000 and initially unset times. -/
abbrev LegacyState : Type := ℚ × Option ℤ × ℚ × Option ℤ

/-- One legacy loop body step (unconditional part, applied to a counted
point). -/
def legacyUpd (st : LegacyState) (t : ℤ) (temp : ℚ) : LegacyState :=
  let mn' := if temp < st.1 then (temp, some t) else (st.1, st.2.1)
  let mx' := if temp > st.2.2.1 then (temp, some t) else (st.2.2.1, st.2.2.2)
  (mn'.1, mn'.2, mx'.1, mx'.2)

/-- Plain legacy scan over a series from a given state (no time filter). -/
def legacyFoldMM : List (ℤ × ℚ) → LegacyState → LegacyState
  | [], st => st
  | (t, temp) :: rest, st => legacyFoldMM rest (legacyUpd st t temp)

/-- Scan loop of legacy `check_weather_and_alert`: a point is counted only
when `t > now` and fewer than 24 points have been counted; all other
points are skipped and the loop never breaks. -/
def legacyScanAux (now : ℤ) : List (ℤ × ℚ) → ℕ → LegacyState → LegacyState
  | [], _, st => st
  | (t, temp) :: rest, cnt, st =>
    if now < t ∧ cnt < 24 then legacyScanAux now rest (cnt + 1) (legacyUpd st t temp)
    else legacyScanAux now rest cnt st

/-- Legacy forecast reduction starting from the sentinel state. -/
def legacyScan (now : ℤ) (series : List (ℤ × ℚ)) : LegacyState :=
  legacyScanAux now series 0 (1000, none, -1000, none)

/-- The 48-point test series of the claim: hours 0-23 constant 50, hours
24 and 25 holding the extremes 0 and 100, hours 26-47 constant 50. -/
def series48 : List (ℤ × ℚ) :=
  (List.range 24).map (fun i => ((i : ℤ), (50 : ℚ))) ++ [(24, 0), (25, 100)] ++
  (List.range 22).map (fun i => ((i : ℤ) + 26, 50))

/-- The 3-point test series [50, 50, 50] at hours 1, 2, 3. -/
def series3 : List (ℤ × ℚ) := [(1, 50), (2, 50), (3, 50)]

/-! ## Alert decision (legacy/temperature_alert.py lines 239-244)

The code is `if min_temp < FREEZE_THRESHOLD_F: send_alert("Freeze Warning", ...)
elif max_temp > HEAT_THRESHOLD_F: send_alert("Heat Warning", ...) else: log`,
so at most one `send_alert` call happens per evaluation and the freeze
branch shadows the heat branch. The cloud variant (lines 337-342) is
identical. -/

/-- Kind of alert dispatched by one evaluation. -/
inductive AlertKind
  | freeze
  | heat
deriving DecidableEq, Repr

/-- Alert decision of `check_weather_and_alert`. -/
def alertDecision (mn mx fz ht : ℚ) : Option AlertKind :=
  if mn < fz then some AlertKind.freeze
  else if mx > ht then some AlertKind.heat
  else none

/-- Number of `send_alert` calls an evaluation attempts. -/
def sendCount (d : Option AlertKind) : ℕ :=
  if d.isSome then 1 else 0

/-! ## Sensor reader (tools/temperature.py lines 22-125)

`_ecowitt_api_request` converts every failure mode (network error,
`raise_for_status`, JSON decode error, application `code != 0`) to `None`;
this is the `Option GatewayData` argument below. `_parse_temperature`
returns `None` for a missing or unparsable value, and otherwise rounds the
(possibly Celsius-converted) value to one decimal with Python's
banker's rounding. -/

/-- Unit tag of a gateway temperature object: the code only distinguishes
the Celsius marker from everything else. -/
inductive TUnit
  | celsius
  | fahrenheit
deriving DecidableEq, Repr

/-- A gateway `temperature` object: `value` is `none` when the field is
missing or does not parse as a float, mirroring the two `None` paths of
`_parse_temperature`. -/
structure TempData where
  value : Option ℚ
  unit : TUnit
deriving DecidableEq, Repr

/-- Celsius to Fahrenheit, `f = c * 9/5 + 32`. -/
def c2f (c : ℚ) : ℚ := c * 9 / 5 + 32

/-- Floor of a rational as an integer (`Int.fdiv` is floor division). -/
def ratFloor (q : ℚ) : ℤ := Int.fdiv q.num q.den

/-- Round a rational to the nearest integer, ties to even — the behavior of
Python's `round` on exact values. -/
def halfEven (q : ℚ) : ℤ :=
  if q - ratFloor q < 1/2 then ratFloor q
  else if 1/2 < q - ratFloor q then ratFloor q + 1
  else if ratFloor q % 2 = 0 then ratFloor q else ratFloor q + 1

/-- Python `round(x, 1)`: round to one decimal place. -/
def roundTo1 (q : ℚ) : ℚ := (halfEven (q * 10) : ℚ) / 10

/-- Model of `_parse_temperature`: `None` for an absent object or absent /
unparsable value; otherwise convert `℃` values with `c2f` and round the
result to one decimal. -/
def parse_temperature (d : Option TempData) : Option ℚ :=
  match d with
  | none => none
  | some td =>
    match td.value with
    | none => none
    | some v => some (roundTo1 (if td.unit = TUnit.celsius then c2f v else v))

/-- Payload of a successful gateway / cloud response, keeping only the parts
`get_current_temperatures` reads: the optional `temperature` objects of
`indoor` and `outdoor`, and the `temp_and_humidity_chN` channel objects
keyed by channel number. -/
structure GatewayData where
  indoor : Option TempData
  outdoor : Option TempData
  channels : List (ℕ × TempData)
deriving DecidableEq, Repr

/-- Friendly name resolution: `sensor_names.get(raw_name, raw_name)`. -/
def lookupName (sensorNames : List (String × String)) (raw : String) : String :=
  (alookup sensorNames raw).getD raw

/-- Result entries contributed by one raw sensor object: empty when the
object or its value is absent/unparsable, one named entry otherwise. -/
def entryFor (sensorNames : List (String × String)) (raw : String)
    (td : Option TempData) : List (String × ℚ) :=
  match parse_temperature td with
  | none => []
  | some v => [(lookupName sensorNames raw, v)]

/-- Entries contributed by channel `i` (`temp_and_humidity_ch{i}`, raw name
`Channel {i}`). -/
def chanPart (sensorNames : List (String × String)) (chans : List (ℕ × TempData))
    (i : ℕ) : List (String × ℚ) :=
  entryFor sensorNames ("Channel " ++ toString i) (alookup chans i)

/-- Model of `get_current_temperatures` restricted to a WELL-FORMED
payload (the `data` field and every `temperature` field are dicts): empty
on a failed request, else indoor, outdoor, then channels 1-8 in order.
The full model including the schema-malformed payloads on which the
source raises is `get_current_temperatures_full` below, and
agrees with this one on well-formed payloads. -/
def get_current_temperatures (sensorNames : List (String × String))
    (data : Option GatewayData) : List (String × ℚ) :=
  match data with
  | none => []
  | some d =>
    entryFor sensorNames "Indoor" d.indoor ++
    entryFor sensorNames "Outdoor" d.outdoor ++
    ((List.range' 1 8).map (chanPart sensorNames d.channels)).flatten

/-- Gateway response with channel `i` removed (the response merely omits
that channel). -/
def removeChannel (d : GatewayData) (i : ℕ) : GatewayData :=
  { d with channels := d.channels.filter (fun p => decide (p.1 ≠ i)) }

/-! ## Full sensor reader model with schema-malformed payloads

The source has live exception paths outside the well-formed shape:
`_ecowitt_api_request` catches every exception internally and returns
`None` (network error, `raise_for_status`, JSON decode failure,
`code != 0`), but `get_current_temperatures` itself calls
`data.get("indoor", {})` — an uncaught AttributeError when the `data`
field is a truthy non-dict such as a list — and `_parse_temperature`
evaluates `"value" not in temp_data` OUTSIDE its try block — an uncaught
TypeError when the temperature field is a truthy non-dict such as a bare
number. The legacy `get_ecowitt_temps` instead wraps its whole parse loop
in `try/except Exception`, so it never raises but falls through to
`return temps` with the partially accumulated dict when a parse fails
mid-loop. -/

/-- Result of a Python call: a returned value, or an uncaught exception
propagating to the caller. -/
inductive PyResult (α : Type)
  | ok (val : α)
  | exn
deriving DecidableEq, Repr

/-- A `temperature` field value: a proper dict, or a non-dict JSON value
(e.g. a bare number), of which the reader's guards see only the
truthiness before the membership test raises. -/
inductive TempJson
  | obj (td : TempData)
  | nonDict (truthy : Bool)
deriving DecidableEq, Repr

/-- One sensor object of the cloud payload (`indoor`, `outdoor`,
`temp_and_humidity_chN`): its optional `temperature` field. `none` for
the whole object models a field absent from the payload (the source
substitutes `{}`, whose `"temperature" in ...` test is false). -/
structure SensorJson where
  temperature : Option TempJson
deriving DecidableEq, Repr

/-- The `data` field of a successful cloud response: a dict of sensor
objects, or a non-dict JSON value (e.g. a list) with its truthiness. -/
inductive DataJson
  | obj (indoor outdoor : Option SensorJson) (channels : List (ℕ × SensorJson))
  | nonDict (truthy : Bool)
deriving DecidableEq, Repr

/-- Full model of `_parse_temperature`: on a dict it behaves as
`parse_temperature`; a falsy non-dict argument returns `None` via the
`if not temp_data` guard; a truthy non-dict argument (a bare number)
reaches `"value" not in temp_data`, which raises TypeError outside the
function's try block and propagates to the caller. -/
def parse_temperature_json : TempJson → PyResult (Option ℚ)
  | TempJson.obj td => PyResult.ok (parse_temperature (some td))
  | TempJson.nonDict truthy => if truthy then PyResult.exn else PyResult.ok none

/-- Entries contributed by one sensor object in the full model: nothing
when the object or its `temperature` field is absent or unparsable; an
exception propagates when the field is a truthy non-dict. -/
def entryForJson (sensorNames : List (String × String)) (raw : String) :
    Option SensorJson → PyResult (List (String × ℚ))
  | none => PyResult.ok []
  | some s =>
    match s.temperature with
    | none => PyResult.ok []
    | some tj =>
      match parse_temperature_json tj with
      | PyResult.exn => PyResult.exn
      | PyResult.ok none => PyResult.ok []
      | PyResult.ok (some v) => PyResult.ok [(lookupName sensorNames raw, v)]

/-- Channel loop of the full model (channels 1-8 in order), aborting at
the first exception. -/
def chansJson (sensorNames : List (String × String))
    (chans : List (ℕ × SensorJson)) : List ℕ → PyResult (List (String × ℚ))
  | [] => PyResult.ok []
  | i :: rest =>
    match entryForJson sensorNames ("Channel " ++ toString i) (alookup chans i) with
    | PyResult.exn => PyResult.exn
    | PyResult.ok l =>
      match chansJson sensorNames chans rest with
      | PyResult.exn => PyResult.exn
      | PyResult.ok ls => PyResult.ok (l ++ ls)

/-- Full model of `get_current_temperatures`: a failed request (`none`,
covering the network / status / JSON / application-error paths all caught
inside `_ecowitt_api_request`) and a falsy non-dict `data` field return
the empty map; a truthy non-dict `data` field raises at
`data.get("indoor", {})`; otherwise indoor, outdoor and channels 1-8 are
parsed in order, any raising temperature field propagating to the
caller. -/
def get_current_temperatures_full (sensorNames : List (String × String)) :
    Option DataJson → PyResult (List (String × ℚ))
  | none => PyResult.ok []
  | some (DataJson.nonDict truthy) =>
    if truthy then PyResult.exn else PyResult.ok []
  | some (DataJson.obj indoor outdoor channels) =>
    match entryForJson sensorNames "Indoor" indoor with
    | PyResult.exn => PyResult.exn
    | PyResult.ok l1 =>
      match entryForJson sensorNames "Outdoor" outdoor with
      | PyResult.exn => PyResult.exn
      | PyResult.ok l2 =>
        match chansJson sensorNames channels (List.range' 1 8) with
        | PyResult.exn => PyResult.exn
        | PyResult.ok l3 => PyResult.ok (l1 ++ l2 ++ l3)

/-- Embedding of a well-formed payload (every temperature field a dict)
into the full payload type. -/
def toDataJson (d : GatewayData) : DataJson :=
  DataJson.obj (d.indoor.map (fun td => ⟨some (TempJson.obj td)⟩))
    (d.outdoor.map (fun td => ⟨some (TempJson.obj td)⟩))
    (d.channels.map (fun p => (p.1, ⟨some (TempJson.obj p.2)⟩)))

/-- Outcome of consuming one payload item in the legacy reader's loop:
the item carries no temperature key (the if-guard skips it), a value
`float()` accepts, or a value on which the item's processing raises
(`float` of a non-numeric, a non-dict list element, ...). -/
inductive LegacyParse
  | skip
  | val (q : ℚ)
  | bad
deriving DecidableEq, Repr

/-- Parse loop of legacy `get_ecowitt_temps` over the concatenated `wh25`
and `ch_aisle` items, each already carrying its resolved sensor name
(name resolution does not interact with the failure behavior):
`temps[name] = float(...)` accumulates dict entries in order; the first
raising item aborts the loop, the exception is caught by the function's
outer `except`, and execution falls through to `return temps` with the
partial accumulator. -/
def legacyLoop : List (String × LegacyParse) → List (String × ℚ) → List (String × ℚ)
  | [], acc => acc
  | (_, LegacyParse.skip) :: rest, acc => legacyLoop rest acc
  | (n, LegacyParse.val q) :: rest, acc => legacyLoop rest (aset acc n q)
  | (_, LegacyParse.bad) :: _, acc => acc

/-- Model of legacy `get_ecowitt_temps`: empty map for a missing ip, and
for a request or JSON-decode failure before the loop (`fail`); otherwise
the parse loop over the payload items, partial on a mid-loop failure.
The function never raises — its whole body sits inside
`try/except Exception`. -/
def get_ecowitt_temps (ip : Option String) (fail : Bool)
    (items : List (String × LegacyParse)) : List (String × ℚ) :=
  match ip with
  | none => []
  | some _ => if fail then [] else legacyLoop items []

/-! ## Device locator and polling cycle (legacy/temperature_alert.py
lines 79-113 and 313-323)

`find_ecowitt_device` returns the cached `GW1200_IP` when set, otherwise
scans (the scan outcome is the `scan` argument) and caches any hit. The
polling block of `main` reads temperatures when an address is available
(`get_ecowitt_temps` returns `{}` on failure, modelled by a `none` read
result) and records them. Nothing in the module ever resets `GW1200_IP`. -/

/-- Model of `find_ecowitt_device`: `(returned address, new cache)`. -/
def find_ecowitt_device (cache : Option String) (scan : Option String) :
    Option String × Option String :=
  match cache with
  | some a => (some a, some a)
  | none =>
    match scan with
    | some a => (some a, some a)
    | none => (none, none)

/-- One polling pass of the `main` loop: discover (or reuse) the address;
when one is available, read (a failed read yields `{}`) and record. Returns
the new cache and history. -/
def pollCycle (cache : Option String) (scan : Option String)
    (readResult : Option (List (String × ℚ))) (h : History) (now : ℤ) :
    Option String × History :=
  match find_ecowitt_device cache scan with
  | (some _, cache') => (cache', update_history h (readResult.getD []) now)
  | (none, cache') => (cache', h)

/-! ## Discovery sweep structure (legacy/temperature_alert.py lines 87-105)

The sweep starts one thread per candidate address; after each batch of 51
spawned threads it joins the whole batch, and it joins all still-pending
threads before returning. The spawn loop stops once `found_ip` is set. The
model makes a probe's result visible at its join point (threads surely
have completed then); `spawned` and `joined` record which probes were
started and which were awaited. -/

/-- Result of a modelled discovery sweep. -/
structure SweepResult where
  found : Option ℕ
  spawned : List ℕ
  joined : List ℕ
deriving DecidableEq, Repr

/-- First successful probe of a joined batch, if any. -/
def firstSuccess (probe : ℕ → Bool) (batch : List ℕ) : Option ℕ :=
  batch.find? probe

/-- Sweep loop: spawn hosts in order while `found` is unset, joining every
full batch of 51 and finally the remaining batch. On the first iteration
with `found` set, stop spawning and join the pending batch (the code's
final `for t in threads: t.join()`). -/
def sweepAux (probe : ℕ → Bool) :
    List ℕ → List ℕ → List ℕ → List ℕ → Option ℕ → SweepResult
  | [], spawned, batch, joined, found =>
    ⟨found <|> firstSuccess probe batch, spawned, joined ++ batch⟩
  | ip :: rest, spawned, batch, joined, found =>
    if found.isSome then ⟨found, spawned, joined ++ batch⟩
    else if 50 < (batch ++ [ip]).length then
      sweepAux probe rest (spawned ++ [ip]) [] (joined ++ (batch ++ [ip]))
        (firstSuccess probe (batch ++ [ip]))
    else sweepAux probe rest (spawned ++ [ip]) (batch ++ [ip]) joined found

/-- Model of the `find_ecowitt_device` scan over a candidate list. -/
def find_sweep (probe : ℕ → Bool) (hosts : List ℕ) : SweepResult :=
  sweepAux probe hosts [] [] [] none

/-! ## Scheduler lemmas and claim C2 -/

theorem schedStep_fst (last : Option Slot) (s : ℕ) : (schedStep last s).1 = slotAt s := by
  unfold schedStep
  rcases h : slotAt s with _ | c
  · rfl
  · show (if some c ≠ last then ((some c : Option Slot), (some c : Option Slot))
      else (last, none)).1 = some c
    rcases eq_or_ne (some c) last with hc | hc
    · rw [if_neg (not_not_intro hc)]
      exact hc.symm
    · rw [if_pos hc]

theorem schedStep_none (last : Option Slot) (s : ℕ) (h : slotAt s = none) :
    schedStep last s = (none, none) := by
  unfold schedStep
  rw [h]

theorem schedStep_active (last : Option Slot) (s : ℕ) (c : Slot) (h : slotAt s = some c)
    (hne : last ≠ some c) : schedStep last s = (some c, some c) := by
  unfold schedStep
  rw [h]
  show (if some c ≠ last then ((some c : Option Slot), (some c : Option Slot))
    else (last, none)) = (some c, some c)
  rw [if_pos (Ne.symm hne)]

theorem schedStep_latched (s : ℕ) (c : Slot) (h : slotAt s = some c) :
    schedStep (some c) s = (some c, none) := by
  unfold schedStep
  rw [h]
  show (if some c ≠ some c then ((some c : Option Slot), (some c : Option Slot))
    else (some c, none)) = (some c, none)
  rw [if_neg (not_not_intro rfl)]

theorem latchAfter_cons (s : ℕ) (rest : List ℕ) (last : Option Slot) :
    latchAfter (s :: rest) last = latchAfter rest (slotAt s) := by
  unfold latchAfter
  rw [List.foldl_cons, schedStep_fst]

theorem schedRun_append (a b : List ℕ) (last : Option Slot) :
    schedRun (a ++ b) last = schedRun a last ++ schedRun b (latchAfter a last) := by
  induction a generalizing last with
  | nil => rfl
  | cons s rest ih =>
    rw [latchAfter_cons]
    show (schedStep last s).2.toList ++ schedRun (rest ++ b) (schedStep last s).1 =
      ((schedStep last s).2.toList ++ schedRun rest (schedStep last s).1) ++
      schedRun b (latchAfter rest (slotAt s))
    rw [ih, schedStep_fst, List.append_assoc]

theorem schedRun_quiet (ticks : List ℕ) (h : ∀ s ∈ ticks, slotAt s = none)
    (last : Option Slot) : schedRun ticks last = [] := by
  induction ticks generalizing last with
  | nil => rfl
  | cons s rest ih =>
    have h0 : slotAt s = none := h s (List.mem_cons_self s rest)
    simp [schedRun, schedStep_none last s h0,
      ih (fun x hx => h x (List.mem_cons_of_mem s hx))]

theorem latchAfter_quiet (ticks : List ℕ) (h : ∀ s ∈ ticks, slotAt s = none)
    (last : Option Slot) :
    latchAfter ticks last = if ticks = [] then last else none := by
  induction ticks generalizing last with
  | nil => rfl
  | cons s rest ih =>
    have h0 : slotAt s = none := h s (List.mem_cons_self s rest)
    rw [latchAfter_cons, h0, ih (fun x hx => h x (List.mem_cons_of_mem s hx))]
    simp

theorem schedRun_activeSeg (ticks : List ℕ) (c : Slot)
    (h : ∀ s ∈ ticks, slotAt s = some c) :
    schedRun ticks (some c) = [] ∧ latchAfter ticks (some c) = some c := by
  induction ticks with
  | nil => exact ⟨rfl, rfl⟩
  | cons s rest ih =>
    have h0 : slotAt s = some c := h s (List.mem_cons_self s rest)
    obtain ⟨ih1, ih2⟩ := ih (fun x hx => h x (List.mem_cons_of_mem s hx))
    refine ⟨?_, ?_⟩
    · simp [schedRun, schedStep_latched s c h0, ih1]
    · rw [latchAfter_cons, h0]
      exact ih2

theorem schedRun_slotSeg (ticks : List ℕ) (c : Slot) (last : Option Slot)
    (hne : ticks ≠ []) (hlast : last ≠ some c)
    (h : ∀ x ∈ ticks, slotAt x = some c) :
    schedRun ticks last = [c] ∧ latchAfter ticks last = some c := by
  rcases ticks with _ | ⟨s, rest⟩
  · exact absurd rfl hne
  · have h0 : slotAt s = some c := h s (List.mem_cons_self s rest)
    obtain ⟨r1, r2⟩ := schedRun_activeSeg rest c
      (fun x hx => h x (List.mem_cons_of_mem s hx))
    refine ⟨?_, ?_⟩
    · simp [schedRun, schedStep_active last s c h0 hlast, r1]
    · rw [latchAfter_cons, h0]
      exact r2

theorem slotAt_seg1 : ∀ x ∈ List.range' 0 3480 10, slotAt x = none := by
  intro x hx
  rw [List.mem_range'] at hx
  obtain ⟨i, hi, rfl⟩ := hx
  unfold slotAt
  rw [if_neg (by omega), if_neg (by omega)]

theorem slotAt_seg2 : ∀ x ∈ List.range' 34800 6 10, slotAt x = some Slot.morning := by
  intro x hx
  rw [List.mem_range'] at hx
  obtain ⟨i, hi, rfl⟩ := hx
  unfold slotAt
  rw [if_neg (by omega), if_pos (by omega)]

theorem slotAt_seg3 : ∀ x ∈ List.range' 34860 3804 10, slotAt x = none := by
  intro x hx
  rw [List.mem_range'] at hx
  obtain ⟨i, hi, rfl⟩ := hx
  unfold slotAt
  rw [if_neg (by omega), if_neg (by omega)]

theorem slotAt_seg4 : ∀ x ∈ List.range' 72900 6 10, slotAt x = some Slot.evening := by
  intro x hx
  rw [List.mem_range'] at hx
  obtain ⟨i, hi, rfl⟩ := hx
  unfold slotAt
  rw [if_pos (by omega)]

theorem slotAt_seg5 : ∀ x ∈ List.range' 72960 1344 10, slotAt x = none := by
  intro x hx
  rw [List.mem_range'] at hx
  obtain ⟨i, hi, rfl⟩ := hx
  unfold slotAt
  rw [if_neg (by omega), if_neg (by omega)]

theorem dayTicks_eq : dayTicks =
    List.range' 0 3480 10 ++ (List.range' 34800 6 10 ++ (List.range' 34860 3804 10 ++
      (List.range' 72900 6 10 ++ List.range' 72960 1344 10))) := by
  have h45 : List.range' 72900 6 10 ++ List.range' 72960 1344 10 =
      List.range' 72900 1350 10 := by
    have := List.range'_append 72900 6 1344 10
    norm_num at this
    exact this
  have h35 : List.range' 34860 3804 10 ++ List.range' 72900 1350 10 =
      List.range' 34860 5154 10 := by
    have := List.range'_append 34860 3804 1350 10
    norm_num at this
    exact this
  have h25 : List.range' 34800 6 10 ++ List.range' 34860 5154 10 =
      List.range' 34800 5160 10 := by
    have := List.range'_append 34800 6 5154 10
    norm_num at this
    exact this
  have h15 : List.range' 0 3480 10 ++ List.range' 34800 5160 10 =
      List.range' 0 8640 10 := by
    have := List.range'_append 0 3480 5160 10
    norm_num at this
    exact this
  rw [dayTicks, ← h15, ← h25, ← h35, ← h45]

/-- C2: over a full day stepped at the 10-second tick, the scheduler loop
evaluates exactly once for the morning 9:40 slot and exactly once for the
evening 20:15 slot (in that order); the `last_alert_slot` latch suppresses
the other ticks inside each one-minute window, and after any tick the
latch equals the slot of that tick — in particular it is reset to `none`
on the first tick outside a window, so a slot can fire again on its next
calendar occurrence. -/
theorem c2_scheduler_exactly_once_per_slot :
    schedRun dayTicks none = [Slot.morning, Slot.evening] ∧
    (∀ (last : Option Slot) (s : ℕ), (schedStep last s).1 = slotAt s) := by
  refine ⟨?_, schedStep_fst⟩
  rw [dayTicks_eq, schedRun_append, schedRun_append, schedRun_append, schedRun_append]
  rw [schedRun_quiet _ slotAt_seg1 none, latchAfter_quiet _ slotAt_seg1 none]
  rw [if_neg (by simp [List.range'_eq_nil])]
  obtain ⟨hm, hml⟩ := schedRun_slotSeg (List.range' 34800 6 10) Slot.morning none
    (by simp [List.range'_eq_nil]) (by simp) slotAt_seg2
  rw [hm, hml]
  rw [schedRun_quiet _ slotAt_seg3 (some Slot.morning),
    latchAfter_quiet _ slotAt_seg3 (some Slot.morning)]
  rw [if_neg (by simp [List.range'_eq_nil])]
  obtain ⟨he, hel⟩ := schedRun_slotSeg (List.range' 72900 6 10) Slot.evening none
    (by simp [List.range'_eq_nil]) (by simp) slotAt_seg4
  rw [he, hel]
  rw [schedRun_quiet _ slotAt_seg5 (some Slot.evening)]
  rfl

/-! ## History store lemmas and claims C1, C10 -/

theorem mem_aset {κ α : Type} [DecidableEq κ] (h : List (κ × α)) (n : κ) (v : α)
    (p : κ × α) (hp : p ∈ aset h n v) : p = (n, v) ∨ p ∈ h := by
  induction h with
  | nil => simpa [aset] using hp
  | cons q rest ih =>
    obtain ⟨k, w⟩ := q
    by_cases hk : k = n
    · rw [aset, if_pos hk] at hp
      rcases List.mem_cons.mp hp with h1 | h1
      · subst hk
        exact Or.inl h1
      · exact Or.inr (List.mem_cons_of_mem _ h1)
    · rw [aset, if_neg hk] at hp
      rcases List.mem_cons.mp hp with h1 | h1
      · exact Or.inr (h1 ▸ List.mem_cons_self _ _)
      · rcases ih h1 with h2 | h2
        · exact Or.inl h2
        · exact Or.inr (List.mem_cons_of_mem _ h2)

theorem alookup_mem {κ α : Type} [DecidableEq κ] (h : List (κ × α)) (n : κ) (v : α)
    (hl : alookup h n = some v) : (n, v) ∈ h := by
  induction h with
  | nil => simp [alookup] at hl
  | cons q rest ih =>
    obtain ⟨k, w⟩ := q
    by_cases hk : k = n
    · rw [alookup, if_pos hk] at hl
      subst hk
      obtain rfl : w = v := by injection hl
      exact List.mem_cons_self _ _
    · rw [alookup, if_neg hk] at hl
      exact List.mem_cons_of_mem _ (ih hl)

theorem keys_aset_sub {κ α : Type} [DecidableEq κ] (h : List (κ × α)) (n : κ) (v : α) :
    (aset h n v).map Prod.fst = h.map Prod.fst ∨
    (aset h n v).map Prod.fst = h.map Prod.fst ++ [n] := by
  induction h with
  | nil => simp [aset]
  | cons q rest ih =>
    obtain ⟨k, w⟩ := q
    by_cases hk : k = n
    · rw [aset, if_pos hk]
      simp
    · rw [aset, if_neg hk]
      rcases ih with h1 | h1
      · exact Or.inl (by simp [h1])
      · exact Or.inr (by simp [h1])

theorem keys_nodup_aset {κ α : Type} [DecidableEq κ] (h : List (κ × α)) (n : κ) (v : α)
    (hnd : (h.map Prod.fst).Nodup) : ((aset h n v).map Prod.fst).Nodup := by
  induction h with
  | nil => simp [aset]
  | cons q rest ih =>
    obtain ⟨k, w⟩ := q
    simp only [List.map_cons, List.nodup_cons] at hnd
    by_cases hk : k = n
    · rw [aset, if_pos hk]
      simpa using hnd
    · rw [aset, if_neg hk]
      simp only [List.map_cons, List.nodup_cons]
      refine ⟨?_, ih hnd.2⟩
      intro hmem
      rcases keys_aset_sub rest n v with h1 | h1
      · exact hnd.1 (h1 ▸ hmem)
      · rw [h1, List.mem_append] at hmem
        rcases hmem with h2 | h2
        · exact hnd.1 h2
        · exact hk (by simpa using h2)

theorem aset_key_unique {κ α : Type} [DecidableEq κ] (h : List (κ × α)) (n : κ) (v : α)
    (p : κ × α) (hnd : (h.map Prod.fst).Nodup) (hp : p ∈ aset h n v) (hkey : p.1 = n) :
    p.2 = v := by
  induction h with
  | nil =>
    rw [aset] at hp
    obtain rfl : p = (n, v) := by simpa using hp
    rfl
  | cons q rest ih =>
    obtain ⟨k, w⟩ := q
    simp only [List.map_cons, List.nodup_cons] at hnd
    by_cases hk : k = n
    · rw [aset, if_pos hk] at hp
      rcases List.mem_cons.mp hp with h1 | h1
      · rw [h1]
      · have hmem : p.1 ∈ rest.map Prod.fst := List.mem_map_of_mem Prod.fst h1
        rw [hkey, ← hk] at hmem
        exact absurd hmem hnd.1
    · rw [aset, if_neg hk] at hp
      rcases List.mem_cons.mp hp with h1 | h1
      · exact absurd ((congrArg Prod.fst h1).symm.trans hkey) hk
      · exact ih hnd.2 h1

theorem keys_nodup_recordOne (h : History) (now : ℤ) (n : String) (t : ℚ)
    (hnd : (h.map Prod.fst).Nodup) : ((recordOne h now n t).map Prod.fst).Nodup :=
  keys_nodup_aset h n _ hnd

theorem recordOne_untouched (h : History) (now : ℤ) (n : String) (t : ℚ)
    (p : String × List Entry) (hp : p ∈ recordOne h now n t) (hne : p.1 ≠ n) : p ∈ h := by
  rcases mem_aset _ _ _ _ hp with h1 | h1
  · exact absurd (congrArg Prod.fst h1) hne
  · exact h1

theorem update_history_untouched (now : ℤ) :
    ∀ (temps : List (String × ℚ)) (h : History) (p : String × List Entry),
      p ∈ update_history h temps now → p.1 ∉ temps.map Prod.fst → p ∈ h := by
  intro temps
  induction temps with
  | nil => exact fun h p hp _ => hp
  | cons nt rest ih =>
    intro h p hp hout
    obtain ⟨n, t⟩ := nt
    simp only [List.map_cons, List.mem_cons, not_or] at hout
    exact recordOne_untouched h now n t p
      (ih (recordOne h now n t) p hp hout.2) hout.1

theorem recordOne_self_entries (h : History) (now : ℤ) (n : String) (t : ℚ)
    (p : String × List Entry) (hnd : (h.map Prod.fst).Nodup)
    (hp : p ∈ recordOne h now n t) (hkey : p.1 = n) :
    ∀ e ∈ p.2, now - window < e.1 := by
  intro e he
  have h2 := aset_key_unique h n _ p hnd hp hkey
  rw [h2] at he
  rw [List.mem_filter] at he
  exact of_decide_eq_true he.2

theorem update_history_touched (now : ℤ) :
    ∀ (temps : List (String × ℚ)) (h : History) (p : String × List Entry),
      (h.map Prod.fst).Nodup → p ∈ update_history h temps now →
      p.1 ∈ temps.map Prod.fst → ∀ e ∈ p.2, now - window < e.1 := by
  intro temps
  induction temps with
  | nil => simp
  | cons nt rest ih =>
    intro h p hnd hp htouch
    obtain ⟨n, t⟩ := nt
    by_cases hrest : p.1 ∈ rest.map Prod.fst
    · exact ih (recordOne h now n t) p (keys_nodup_recordOne h now n t hnd) hp hrest
    · have hkey : p.1 = n := by
        simpa [hrest] using htouch
      have hmem : p ∈ recordOne h now n t :=
        update_history_untouched now rest (recordOne h now n t) p hp hrest
      exact recordOne_self_entries h now n t p hnd hmem hkey

theorem foldl_choice_mem (f : Entry → Entry → Entry)
    (hf : ∀ b x, f b x = b ∨ f b x = x) :
    ∀ (l : List Entry) (b : Entry), l.foldl f b ∈ b :: l := by
  intro l
  induction l with
  | nil => intro b; exact List.mem_singleton.mpr rfl
  | cons x xs ih =>
    intro b
    rcases List.mem_cons.mp (ih (f b x)) with h1 | h1
    · rcases hf b x with h2 | h2
      · rw [List.foldl_cons, h1, h2]
        exact List.mem_cons_self _ _
      · rw [List.foldl_cons, h1, h2]
        exact List.mem_cons_of_mem _ (List.mem_cons_self _ _)
    · exact List.mem_cons_of_mem _ (List.mem_cons_of_mem _ (by rw [List.foldl_cons]; exact h1))

theorem argminTemp_mem (l : List Entry) (e : Entry) (h : argminTemp l = some e) : e ∈ l := by
  cases l with
  | nil => simp [argminTemp] at h
  | cons x xs =>
    rw [argminTemp] at h
    obtain rfl : xs.foldl (fun best y => if y.2 < best.2 then y else best) x = e := by
      injection h
    exact foldl_choice_mem _ (fun b y => by by_cases hy : y.2 < b.2 <;> simp [hy]) xs x

theorem argmaxTemp_mem (l : List Entry) (e : Entry) (h : argmaxTemp l = some e) : e ∈ l := by
  cases l with
  | nil => simp [argmaxTemp] at h
  | cons x xs =>
    rw [argmaxTemp] at h
    obtain rfl : xs.foldl (fun best y => if y.2 > best.2 then y else best) x = e := by
      injection h
    exact foldl_choice_mem _ (fun b y => by by_cases hy : y.2 > b.2 <;> simp [hy]) xs x

theorem stats_mem (h : History) (name : String) (e : Entry)
    (hmem : (name, e) ∈ (get_24h_stats h).1 ∨ (name, e) ∈ (get_24h_stats h).2) :
    ∃ p ∈ h, p.1 = name ∧ e ∈ p.2 := by
  rcases hmem with hm | hm
  · rw [get_24h_stats] at hm
    simp only [List.mem_filterMap] at hm
    obtain ⟨p, hp, heq⟩ := hm
    rw [Option.map_eq_some'] at heq
    obtain ⟨a, ha, heq2⟩ := heq
    obtain ⟨h1, h2⟩ : p.1 = name ∧ a = e := by
      constructor <;> [exact congrArg Prod.fst heq2; exact congrArg Prod.snd heq2]
    exact ⟨p, hp, h1, h2 ▸ argminTemp_mem p.2 a ha⟩
  · rw [get_24h_stats] at hm
    simp only [List.mem_filterMap] at hm
    obtain ⟨p, hp, heq⟩ := hm
    rw [Option.map_eq_some'] at heq
    obtain ⟨a, ha, heq2⟩ := heq
    obtain ⟨h1, h2⟩ : p.1 = name ∧ a = e := by
      constructor <;> [exact congrArg Prod.fst heq2; exact congrArg Prod.snd heq2]
    exact ⟨p, hp, h1, h2 ▸ argmaxTemp_mem p.2 a ha⟩

/-- C1 counterexample: record one reading for sensor "s" at time 0; the
store is never pruned again, so a `get_24h_stats` query whose own
wall-clock time is 90000 s (25 h) later still returns the reading with
timestamp 0, which is NOT strictly newer than `query time - 24h`
(`90000 - 86400 = 3600 > 0`). The claim's bound relative to the query's
own wall-clock time therefore fails: pruning happens only inside
`update_history`, never on read. -/
theorem c1_counterexample :
    (get_24h_stats (update_history [] [("s", (50 : ℚ))] 0)).1 =
      [("s", ((0 : ℤ), (50 : ℚ)))] ∧
    ¬((90000 : ℤ) - window < 0) := by
  constructor
  · rfl
  · decide

/-- C1 amended: every reading returned by `get_24h_stats` for a sensor
touched by the MOST RECENT `update_history` call is strictly newer than
that call's wall-clock time minus 24 h (the bound holds relative to the
last record time, not the query's own time; sensors not touched since, or
queries long after the last record, can see older readings). -/
theorem c1_amended_stats_bound (h : History) (temps : List (String × ℚ)) (now : ℤ)
    (name : String) (e : Entry)
    (hnd : (h.map Prod.fst).Nodup)
    (htouch : name ∈ temps.map Prod.fst)
    (hmem : (name, e) ∈ (get_24h_stats (update_history h temps now)).1 ∨
            (name, e) ∈ (get_24h_stats (update_history h temps now)).2) :
    now - window < e.1 := by
  obtain ⟨p, hp, hkey, he⟩ := stats_mem _ name e hmem
  exact update_history_touched now temps h p hnd hp (hkey ▸ htouch) e he

/-- Witness for C1 amended at a concrete input: sensor "s" recorded at time
0 is returned by the stats query and satisfies the bound relative to the
record time. -/
theorem c1_amended_witness : (0 : ℤ) - window < ((0 : ℤ), (50 : ℚ)).1 :=
  c1_amended_stats_bound [] [("s", 50)] 0 "s" (0, 50) (by simp) (by simp)
    (Or.inl (by decide))

theorem lookupD_mem_or_nil (h : History) (n : String) :
    lookupD h n = [] ∨ (n, lookupD h n) ∈ h := by
  unfold lookupD
  cases hl : alookup h n with
  | none => exact Or.inl rfl
  | some l => exact Or.inr (by simpa using alookup_mem h n l hl)

theorem recordOne_sortdom (h : History) (now : ℤ) (n : String) (t : ℚ)
    (hinv : ∀ p ∈ h, tsSorted p.2 ∧ ∀ e ∈ p.2, e.1 ≤ now) :
    ∀ q ∈ recordOne h now n t, tsSorted q.2 ∧ ∀ e ∈ q.2, e.1 ≤ now := by
  intro q hq
  rcases mem_aset _ _ _ _ hq with h1 | h1
  · have base : tsSorted (lookupD h n) ∧ ∀ e ∈ lookupD h n, e.1 ≤ now := by
      rcases lookupD_mem_or_nil h n with h2 | h2
      · rw [h2]
        exact ⟨List.Pairwise.nil, by simp⟩
      · exact hinv _ h2
    have happ : tsSorted (lookupD h n ++ [(now, t)]) ∧
        ∀ e ∈ lookupD h n ++ [(now, t)], e.1 ≤ now := by
      refine ⟨?_, ?_⟩
      · rw [tsSorted, List.pairwise_append]
        refine ⟨base.1, List.pairwise_singleton _ _, ?_⟩
        intro a ha b hb
        obtain rfl : b = (now, t) := by simpa using hb
        exact base.2 a ha
      · intro e he
        rcases List.mem_append.mp he with h3 | h3
        · exact base.2 e h3
        · obtain rfl : e = (now, t) := by simpa using h3
          exact le_refl now
    subst h1
    refine ⟨?_, ?_⟩
    · exact List.Pairwise.sublist (List.filter_sublist _) happ.1
    · intro e he
      exact happ.2 e (List.mem_of_mem_filter he)
  · exact hinv q h1

theorem recordOne_origin (h : History) (now : ℤ) (n : String) (t : ℚ) :
    ∀ q ∈ recordOne h now n t, ∀ e ∈ q.2,
      (∃ r ∈ h, r.1 = q.1 ∧ e ∈ r.2) ∨ e.1 = now := by
  intro q hq e he
  rcases mem_aset _ _ _ _ hq with h1 | h1
  · subst h1
    have he2 : e ∈ lookupD h n ++ [(now, t)] := List.mem_of_mem_filter he
    rcases List.mem_append.mp he2 with h3 | h3
    · rcases lookupD_mem_or_nil h n with h4 | h4
      · rw [h4] at h3
        exact absurd h3 (List.not_mem_nil e)
      · exact Or.inl ⟨(n, lookupD h n), h4, rfl, h3⟩
    · obtain rfl : e = (now, t) := by simpa using h3
      exact Or.inr rfl
  · exact Or.inl ⟨q, h1, rfl, he⟩

theorem update_history_inv (now : ℤ) :
    ∀ (temps : List (String × ℚ)) (h : History),
      (∀ p ∈ h, tsSorted p.2 ∧ ∀ e ∈ p.2, e.1 ≤ now) →
      ∀ p ∈ update_history h temps now,
        (tsSorted p.2 ∧ ∀ e ∈ p.2, e.1 ≤ now) ∧
        ∀ e ∈ p.2, (∃ q ∈ h, q.1 = p.1 ∧ e ∈ q.2) ∨ e.1 = now := by
  intro temps
  induction temps with
  | nil =>
    intro h hinv p hp
    exact ⟨hinv p hp, fun e he => Or.inl ⟨p, hp, rfl, he⟩⟩
  | cons nt rest ih =>
    intro h hinv p hp
    obtain ⟨n, t⟩ := nt
    have hinv1 := recordOne_sortdom h now n t hinv
    have hmain := ih (recordOne h now n t) hinv1 p hp
    refine ⟨hmain.1, ?_⟩
    intro e he
    rcases hmain.2 e he with h1 | h1
    · obtain ⟨q, hq, hkey, heq⟩ := h1
      rcases recordOne_origin h now n t q hq e heq with h2 | h2
      · obtain ⟨r, hr, hrkey, hre⟩ := h2
        exact Or.inl ⟨r, hr, hrkey.trans hkey, hre⟩
      · exact Or.inr h2
    · exact Or.inr h1

/-- C10: one `update_history` call, from a store whose per-sensor lists are
timestamp-sorted and whose entries are no newer than the call time `now`,
(a) keeps every stored list timestamp-sorted (so sequences stay
non-decreasing across successive calls with non-decreasing clock),
(b) gives every entry either an origin in the pre-call store or the shared
timestamp `now` taken once at call entry, and
(c) leaves every touched sensor with only entries strictly newer than
`now - 24h`. -/
theorem c10_update_history_batch (h : History) (temps : List (String × ℚ)) (now : ℤ)
    (hnd : (h.map Prod.fst).Nodup)
    (hsort : ∀ p ∈ h, tsSorted p.2)
    (hdom : ∀ p ∈ h, ∀ e ∈ p.2, e.1 ≤ now) :
    (∀ p ∈ update_history h temps now, tsSorted p.2) ∧
    (∀ p ∈ update_history h temps now, ∀ e ∈ p.2,
        (∃ q ∈ h, q.1 = p.1 ∧ e ∈ q.2) ∨ e.1 = now) ∧
    (∀ p ∈ update_history h temps now, p.1 ∈ temps.map Prod.fst →
        ∀ e ∈ p.2, now - window < e.1) := by
  have hinv : ∀ p ∈ h, tsSorted p.2 ∧ ∀ e ∈ p.2, e.1 ≤ now :=
    fun p hp => ⟨hsort p hp, hdom p hp⟩
  refine ⟨?_, ?_, ?_⟩
  · exact fun p hp => (update_history_inv now temps h hinv p hp).1.1
  · exact fun p hp => (update_history_inv now temps h hinv p hp).2
  · exact fun p hp ht => update_history_touched now temps h p hnd hp ht

/-- Witness for C10 at a concrete input: recording 50F for sensor "s" at
time 0 over a store holding one older reading keeps the stored list
timestamp-sorted. -/
theorem c10_witness : tsSorted [(((-10) : ℤ), (40 : ℚ)), ((0 : ℤ), (50 : ℚ))] := by
  have hsort : ∀ p ∈ [("s", [(((-10) : ℤ), (40 : ℚ))])], tsSorted p.2 := by
    intro p hp
    obtain rfl : p = ("s", [(((-10) : ℤ), (40 : ℚ))]) := by simpa using hp
    exact List.pairwise_singleton _ _
  have hdom : ∀ p ∈ [("s", [(((-10) : ℤ), (40 : ℚ))])], ∀ e ∈ p.2, e.1 ≤ (0 : ℤ) := by
    intro p hp e he
    obtain rfl : p = ("s", [(((-10) : ℤ), (40 : ℚ))]) := by simpa using hp
    obtain rfl : e = (((-10) : ℤ), (40 : ℚ)) := by simpa using he
    decide
  exact (c10_update_history_batch [("s", [(((-10) : ℤ), (40 : ℚ))])] [("s", 50)] 0
    (by simp) hsort hdom).1 ("s", [(((-10) : ℤ), (40 : ℚ)), ((0 : ℤ), (50 : ℚ))])
    (by decide)

/-! ## Forecast reduction lemmas and claims C3, C4, C9 -/

theorem toolScanAux_eq (nowH : ℤ) :
    ∀ (series : List (ℤ × ℚ)) (cnt : ℕ) (mn mx : Option (ℚ × ℤ)),
      toolScanAux nowH series cnt mn mx =
        foldMM ((series.filter (fun p => decide (nowH ≤ p.1))).take (24 - cnt)) mn mx := by
  intro series
  induction series with
  | nil =>
    intro cnt mn mx
    rw [List.filter_nil, List.take_nil]
    rfl
  | cons pt rest ih =>
    intro cnt mn mx
    obtain ⟨t, temp⟩ := pt
    by_cases hq : nowH ≤ t
    · have hqd : decide (nowH ≤ (t, temp).1) = true := decide_eq_true hq
      rw [List.filter_cons, if_pos hqd]
      by_cases hc : cnt < 24
      · rw [toolScanAux, if_pos hq, if_pos hc]
        have h24 : 24 - cnt = (24 - (cnt + 1)) + 1 := by omega
        rw [h24, List.take_succ_cons, foldMM]
        exact ih (cnt + 1) _ _
      · rw [toolScanAux, if_pos hq, if_neg hc]
        have h0 : 24 - cnt = 0 := by omega
        rw [h0, List.take_zero]
        rfl
    · have hqd : ¬(decide (nowH ≤ (t, temp).1) = true) := by
        simpa using hq
      rw [List.filter_cons, if_neg hqd, toolScanAux, if_neg hq]
      exact ih cnt mn mx

theorem foldMM_some (l : List (ℤ × ℚ)) :
    ∀ (a b : ℚ × ℤ), ∃ a' b', foldMM l (some a) (some b) = (some a', some b') := by
  induction l with
  | nil => exact fun a b => ⟨a, b, rfl⟩
  | cons pt rest ih =>
    intro a b
    obtain ⟨t, temp⟩ := pt
    obtain ⟨m, mt⟩ := a
    obtain ⟨M, Mt⟩ := b
    by_cases h1 : temp < m <;> by_cases h2 : temp > M <;>
      simp only [foldMM, updMin, updMax, if_pos, if_neg, h1, h2, ite_true, ite_false] <;>
      exact ih _ _

theorem foldMM_take_some (l : List (ℤ × ℚ)) (hl : l ≠ []) (n : ℕ) (hn : n ≠ 0) :
    ∃ a' b', foldMM (l.take n) none none = (some a', some b') := by
  rcases l with _ | ⟨⟨t, temp⟩, rest⟩
  · exact absurd rfl hl
  rcases n with _ | m
  · exact absurd rfl hn
  · rw [List.take_succ_cons, foldMM]
    exact foldMM_some _ _ _

theorem toolReduce_eq (nowH : ℤ) (series : List (ℤ × ℚ)) :
    toolReduce nowH series =
      if series.any (fun p => decide (nowH ≤ p.1)) then
        foldMM ((series.filter (fun p => decide (nowH ≤ p.1))).take 24) none none
      else foldMM (series.take 24) none none := by
  unfold toolReduce
  rw [toolScanAux_eq]
  norm_num
  by_cases hany : series.any (fun p => decide (nowH ≤ p.1)) = true
  · have hne : series.filter (fun p => decide (nowH ≤ p.1)) ≠ [] := by
      rw [Ne, List.filter_eq_nil_iff]
      obtain ⟨x, hx, hpx⟩ := List.any_eq_true.mp hany
      exact fun hall => hall x hx hpx
    obtain ⟨a', b', hab⟩ := foldMM_take_some _ hne 24 (by omega)
    rw [hab, if_pos hany]
    rw [if_neg (by simp)]
  · have hnil : series.filter (fun p => decide (nowH ≤ p.1)) = [] := by
      rw [List.filter_eq_nil_iff]
      intro a ha hpa
      exact hany (List.any_eq_true.mpr ⟨a, ha, hpa⟩)
    rw [hnil, List.take_nil]
    rw [if_neg hany]
    rw [if_pos (by simp [foldMM])]

theorem legacyScanAux_eq (now : ℤ) :
    ∀ (series : List (ℤ × ℚ)) (cnt : ℕ) (st : LegacyState),
      legacyScanAux now series cnt st =
        legacyFoldMM ((series.filter (fun p => decide (now < p.1))).take (24 - cnt)) st := by
  intro series
  induction series with
  | nil =>
    intro cnt st
    rw [List.filter_nil, List.take_nil]
    rfl
  | cons pt rest ih =>
    intro cnt st
    obtain ⟨t, temp⟩ := pt
    by_cases h1 : now < t
    · have hqd : decide (now < (t, temp).1) = true := decide_eq_true h1
      rw [List.filter_cons, if_pos hqd]
      by_cases h2 : cnt < 24
      · rw [legacyScanAux, if_pos ⟨h1, h2⟩]
        have h24 : 24 - cnt = (24 - (cnt + 1)) + 1 := by omega
        rw [h24, List.take_succ_cons, legacyFoldMM]
        exact ih (cnt + 1) _
      · rw [legacyScanAux, if_neg (fun hc => h2 hc.2)]
        have h0 : 24 - cnt = 0 := by omega
        rw [h0, List.take_zero, ih cnt st, h0, List.take_zero]
    · have hqd : ¬(decide (now < (t, temp).1) = true) := by
        simpa using h1
      rw [List.filter_cons, if_neg hqd, legacyScanAux, if_neg (fun hc => h1 hc.1)]
      exact ih cnt st

/-- C3 counterexample: when the series holds no point at or after the
current hour (here `nowH = 100`, points at hours 0 and 1), the tool
implementation falls back to scanning the first 24 raw points and returns
extremes computed from points BEFORE the current hour — contradicting the
claim that only points at or after the current hour are ever considered. -/
theorem c3_counterexample :
    toolReduce 100 [((0 : ℤ), (10 : ℚ)), (1, 90)] = (some (10, 0), some (90, 1)) ∧
    [((0 : ℤ), (10 : ℚ)), (1, 90)].filter (fun p => decide ((100 : ℤ) ≤ p.1)) = [] := by
  exact ⟨rfl, rfl⟩

set_option maxRecDepth 8000 in
/-- C3 (amended): the tool forecast reduction equals a plain min/max scan
of the first 24 points at or after the current hour whenever at least one
such point exists, and of the first 24 raw points otherwise (the fallback);
the legacy reduction equals a plain scan of the first 24 points strictly
after `now`, unconditionally. On the 48-point example series (first 24
points constant 50, extremes 0 and 100 only afterwards) both reductions
report low = high = 50, ignoring the trailing extremes. -/
theorem c3_forecast_window_truncation :
    (∀ (nowH : ℤ) (series : List (ℤ × ℚ)),
      toolReduce nowH series =
        if series.any (fun p => decide (nowH ≤ p.1)) then
          foldMM ((series.filter (fun p => decide (nowH ≤ p.1))).take 24) none none
        else foldMM (series.take 24) none none) ∧
    (∀ (now : ℤ) (series : List (ℤ × ℚ)),
      legacyScan now series =
        legacyFoldMM ((series.filter (fun p => decide (now < p.1))).take 24)
          (1000, none, -1000, none)) ∧
    toolReduce 0 series48 = (some (50, 0), some (50, 0)) ∧
    legacyScan (-1) series48 = (50, some 0, 50, some 0) := by
  refine ⟨toolReduce_eq, ?_, by decide, by decide⟩
  intro now series
  rw [legacyScan, legacyScanAux_eq]

/-- C4 counterexample: for the forecast series [50, 50, 50] with freeze
threshold 60 and heat threshold 70, the code computes `freeze_warning =
true` (because 50 < 60) and the evaluation dispatches a Freeze Warning —
the claim's `freeze_warning = false` and "no alert is sent" are both
false on the code. -/
theorem c4_counterexample :
    freezeWarning (toolReduce 0 series3) 60 = true ∧
    alertDecision (legacyScan 0 series3).1 (legacyScan 0 series3).2.2.1 60 70 =
      some AlertKind.freeze := by
  exact ⟨rfl, rfl⟩

/-- C4 (amended): for the forecast series [50, 50, 50] over 3 future hours
with freeze threshold 60 and heat threshold 70, both implementations
compute forecast_low = forecast_high = 50 with the first occurrence
winning ties (strict comparisons in the linear scan); `freeze_warning` is
true and `heat_warning` false, and exactly one alert — the Freeze
Warning — is dispatched. -/
theorem c4_tie_break_eval :
    legacyScan 0 series3 = (50, some 1, 50, some 1) ∧
    toolReduce 0 series3 = (some (50, 1), some (50, 1)) ∧
    freezeWarning (toolReduce 0 series3) 60 = true ∧
    heatWarning (toolReduce 0 series3) 70 = false ∧
    alertDecision (legacyScan 0 series3).1 (legacyScan 0 series3).2.2.1 60 70 =
      some AlertKind.freeze ∧
    sendCount (alertDecision (legacyScan 0 series3).1 (legacyScan 0 series3).2.2.1 60 70) =
      1 := by
  exact ⟨rfl, rfl, rfl, rfl, rfl, rfl⟩

/-- C9: whenever the forecast minimum is below the freeze threshold AND the
forecast maximum is above the heat threshold, the evaluation dispatches
exactly one alert and it is the Freeze Warning: the `elif` structure means
the heat branch is reached only when the freeze condition fails. -/
theorem c9_freeze_shadows_heat (mn mx fz ht : ℚ) (h1 : mn < fz) (h2 : ht < mx) :
    alertDecision mn mx fz ht = some AlertKind.freeze ∧
    sendCount (alertDecision mn mx fz ht) = 1 := by
  rw [alertDecision, if_pos h1]
  exact ⟨rfl, rfl⟩

/-- Witness for C9 at a concrete input: min 30 below freeze threshold 60
and max 80 above heat threshold 70 dispatch exactly the Freeze Warning. -/
theorem c9_witness :
    (30 : ℚ) < 60 ∧ (70 : ℚ) < 80 ∧
    alertDecision 30 80 60 70 = some AlertKind.freeze :=
  ⟨by norm_num, by norm_num,
    (c9_freeze_shadows_heat 30 80 60 70 (by norm_num) (by norm_num)).1⟩

/-! ## Unit normalization lemmas and claim C7 -/

theorem ratFloor_intCast (n : ℤ) : ratFloor (n : ℚ) = n := by
  unfold ratFloor
  rw [Rat.num_intCast, Rat.den_intCast]
  simpa using Int.fdiv_one n

theorem roundTo1_one_decimal (v : ℚ) (hv : ∃ n : ℤ, v * 10 = (n : ℚ)) :
    roundTo1 v = v := by
  obtain ⟨n, hn⟩ := hv
  have hfloor : ratFloor (v * 10) = n := by
    rw [hn]
    exact ratFloor_intCast n
  unfold roundTo1 halfEven
  rw [hfloor, hn, if_pos (by simp)]
  rw [← hn]
  exact mul_div_cancel_right₀ v (by norm_num)

/-- C7 counterexample: a gateway value 11.11 tagged Fahrenheit is NOT
passed through unchanged — `_parse_temperature` rounds every result to one
decimal, returning 11.1. -/
theorem c7_counterexample :
    parse_temperature (some ⟨some (1111/100), TUnit.fahrenheit⟩) = some (111/10) ∧
    (111/10 : ℚ) ≠ (1111/100 : ℚ) := by
  have hr : roundTo1 (1111/100 : ℚ) = 111/10 := by
    have h1 : (1111/100 : ℚ) * 10 = 1111/10 := by norm_num
    have h2 : ratFloor (1111/10 : ℚ) = 111 := by
      unfold ratFloor
      rw [show ((1111/10 : ℚ)).num = 1111 by norm_num,
          show ((1111/10 : ℚ)).den = 10 by norm_num]
      decide
    unfold roundTo1 halfEven
    rw [h1, h2, if_pos (by norm_num)]
    norm_num
  constructor
  · show some (roundTo1 (1111/100 : ℚ)) = some (111/10 : ℚ)
    rw [hr]
  · norm_num

/-- C7 (amended): unit normalization in `_parse_temperature` converts a
Celsius-tagged value by `f = c * 9/5 + 32` and applies no conversion to a
Fahrenheit-tagged value, but always rounds the result to one decimal
place; 20C yields exactly 68.0F, and a Fahrenheit value with at most one
decimal place passes through unchanged. -/
theorem c7_unit_normalization :
    parse_temperature (some ⟨some 20, TUnit.celsius⟩) = some 68 ∧
    (∀ c : ℚ, parse_temperature (some ⟨some c, TUnit.celsius⟩) =
      some (roundTo1 (c2f c))) ∧
    (∀ v : ℚ, parse_temperature (some ⟨some v, TUnit.fahrenheit⟩) =
      some (roundTo1 v)) ∧
    (∀ v : ℚ, (∃ n : ℤ, v * 10 = (n : ℚ)) →
      parse_temperature (some ⟨some v, TUnit.fahrenheit⟩) = some v) := by
  refine ⟨?_, fun c => rfl, fun v => rfl, ?_⟩
  · show some (roundTo1 (c2f 20)) = some (68 : ℚ)
    have hc : c2f (20 : ℚ) = 68 := by
      unfold c2f
      norm_num
    rw [hc, roundTo1_one_decimal 68 ⟨680, by norm_num⟩]
  · intro v hv
    show some (roundTo1 v) = some v
    rw [roundTo1_one_decimal v hv]

/-- Witness for C7 at a concrete input: 68.5F (one decimal place) passes
through `_parse_temperature` unchanged. -/
theorem c7_witness :
    parse_temperature (some ⟨some (685/10), TUnit.fahrenheit⟩) = some (685/10) :=
  c7_unit_normalization.2.2.2 (685/10) ⟨685, by norm_num⟩

/-! ## Device cache lemmas and claim C6 -/

/-- C6 counterexample: with address 10.0.0.7 cached, a polling cycle whose
sensor read fails (read result `none`, i.e. `get_ecowitt_temps` caught an
exception and returned `{}`) leaves the cache EQUAL to the old address —
it is not cleared to unknown — and the next `find_ecowitt_device` call
returns the cached address without re-running discovery. -/
theorem c6_counterexample :
    (pollCycle (some "10.0.0.7") none none [] 0).1 = some "10.0.0.7" ∧
    some "10.0.0.7" ≠ (none : Option String) ∧
    (find_ecowitt_device (some "10.0.0.7") none).1 = some "10.0.0.7" := by
  exact ⟨rfl, by simp, rfl⟩

/-- C6 (amended): once a gateway address is cached, no polling cycle ever
clears it — a failed read merely records no data, and every subsequent
cycle reuses the cached (possibly stale) address; discovery is never
re-run after the first success. Nothing in the module resets `GW1200_IP`. -/
theorem c6_cache_never_cleared (a : String) (scan : Option String)
    (readResult : Option (List (String × ℚ))) (h : History) (now : ℤ) :
    (pollCycle (some a) scan readResult h now).1 = some a := rfl

/-! ## Discovery sweep lemmas and claim C8 -/

theorem sweepAux_awaits (probe : ℕ → Bool) :
    ∀ (hosts spawned batch joined : List ℕ) (found : Option ℕ),
      spawned = joined ++ batch →
      (sweepAux probe hosts spawned batch joined found).joined =
        (sweepAux probe hosts spawned batch joined found).spawned := by
  intro hosts
  induction hosts with
  | nil =>
    intro spawned batch joined found hinv
    simp [sweepAux, hinv]
  | cons ip rest ih =>
    intro spawned batch joined found hinv
    by_cases hf : found.isSome = true
    · simp [sweepAux, hf, hinv]
    · by_cases hlen : 50 < (batch ++ [ip]).length
      · simp only [sweepAux, hf, hlen, if_true, if_false, Bool.false_eq_true]
        exact ih _ _ _ _ (by rw [hinv, List.append_assoc, List.append_nil])
      · simp only [sweepAux, hf, hlen, if_true, if_false, Bool.false_eq_true]
        exact ih _ _ _ _ (by rw [hinv, List.append_assoc])

/-- C8 counterexample: on a 60-host subnet where only the first probe
succeeds, the sweep spawns the full first batch of 51 probes and joins
every one of them before returning: probe 1 — in flight when probe 0
succeeded — is awaited, not abandoned. (The model makes a probe's result
visible at its join point, an admissible schedule of the source's threads;
that every spawned thread is joined is schedule-independent, since
`find_ecowitt_device` joins `threads` both on batch overflow and after the
spawn loop.) -/
theorem c8_counterexample :
    (find_sweep (fun n => n == 0) (List.range 60)).found = some 0 ∧
    1 ∈ (find_sweep (fun n => n == 0) (List.range 60)).joined ∧
    (find_sweep (fun n => n == 0) (List.range 60)).joined.length = 51 := by
  refine ⟨by decide, by decide, by decide⟩

/-- C8 (amended): the device locator stops launching new probes once a
success is visible, but it joins (awaits) every probe it has spawned —
including the whole in-flight batch — before returning, rather than
abandoning in-flight probes. -/
theorem c8_all_probes_awaited (probe : ℕ → Bool) (hosts : List ℕ) :
    (find_sweep probe hosts).joined = (find_sweep probe hosts).spawned :=
  sweepAux_awaits probe hosts [] [] [] none rfl

/-! ## Sensor reader lemmas and claim C5 -/

theorem entryFor_parse_some (sn : List (String × String)) (raw : String)
    (td : Option TempData) (v : ℚ) (hp : parse_temperature td = some v) :
    entryFor sn raw td = [(lookupName sn raw, v)] := by
  unfold entryFor
  rw [hp]

theorem alookup_filter_ne {α : Type} (l : List (ℕ × α)) (i j : ℕ) (hne : j ≠ i) :
    alookup (l.filter (fun p => decide (p.1 ≠ i))) j = alookup l j := by
  induction l with
  | nil => rfl
  | cons q rest ih =>
    obtain ⟨k, w⟩ := q
    by_cases hk : k = i
    · subst hk
      rw [List.filter_cons, if_neg (by simp), alookup, if_neg (fun he => hne he.symm)]
      exact ih
    · rw [List.filter_cons, if_pos (by simpa using hk)]
      by_cases hkj : k = j
      · rw [alookup, if_pos hkj, alookup, if_pos hkj]
      · rw [alookup, if_neg hkj, alookup, if_neg hkj]
        exact ih

theorem alookup_filter_self {α : Type} (l : List (ℕ × α)) (i : ℕ) :
    alookup (l.filter (fun p => decide (p.1 ≠ i))) i = none := by
  induction l with
  | nil => rfl
  | cons q rest ih =>
    obtain ⟨k, w⟩ := q
    by_cases hk : k = i
    · subst hk
      rw [List.filter_cons, if_neg (by simp)]
      exact ih
    · rw [List.filter_cons, if_pos (by simpa using hk), alookup, if_neg hk]
      exact ih

theorem chanPart_remove_ne (sn : List (String × String)) (d : GatewayData) (i j : ℕ)
    (hne : j ≠ i) :
    chanPart sn (removeChannel d i).channels j = chanPart sn d.channels j := by
  unfold chanPart removeChannel
  rw [alookup_filter_ne d.channels i j hne]

theorem chanPart_remove_self (sn : List (String × String)) (d : GatewayData) (i : ℕ) :
    chanPart sn (removeChannel d i).channels i = [] := by
  unfold chanPart removeChannel
  rw [alookup_filter_self]
  rfl

theorem joinParts_remove (sn : List (String × String)) (d : GatewayData) (i : ℕ) (v : ℚ)
    (hp : parse_temperature (alookup d.channels i) = some v) :
    ∀ (js : List ℕ), js.Nodup → i ∈ js →
      ∃ l1 l2,
        (js.map (chanPart sn d.channels)).flatten =
          l1 ++ [(lookupName sn ("Channel " ++ toString i), v)] ++ l2 ∧
        (js.map (chanPart sn (removeChannel d i).channels)).flatten = l1 ++ l2 := by
  intro js
  induction js with
  | nil =>
    intro _ hi
    exact absurd hi (List.not_mem_nil i)
  | cons j rest ih =>
    intro hnd hi
    rw [List.nodup_cons] at hnd
    by_cases hj : j = i
    · subst hj
      refine ⟨[], (rest.map (chanPart sn d.channels)).flatten, ?_, ?_⟩
      · rw [List.map_cons, List.flatten_cons]
        unfold chanPart
        rw [entryFor_parse_some sn _ _ v hp]
        simp
      · rw [List.map_cons, List.flatten_cons, chanPart_remove_self]
        have hcong : rest.map (chanPart sn (removeChannel d j).channels) =
            rest.map (chanPart sn d.channels) :=
          List.map_congr_left
            (fun x hx => chanPart_remove_ne sn d j x (fun he => hnd.1 (he ▸ hx)))
        rw [hcong]
    · have hi2 : i ∈ rest := by
        rcases List.mem_cons.mp hi with h1 | h1
        · exact absurd h1.symm hj
        · exact h1
      obtain ⟨l1, l2, hL1, hL2⟩ := ih hnd.2 hi2
      refine ⟨chanPart sn d.channels j ++ l1, l2, ?_, ?_⟩
      · rw [List.map_cons, List.flatten_cons, hL1]
        simp [List.append_assoc]
      · rw [List.map_cons, List.flatten_cons, chanPart_remove_ne sn d i j hj, hL2]
        simp [List.append_assoc]

theorem alookup_map_snd {α β : Type} (f : α → β) :
    ∀ (l : List (ℕ × α)) (k : ℕ),
      alookup (l.map (fun p => (p.1, f p.2))) k = (alookup l k).map f := by
  intro l
  induction l with
  | nil => intro k; rfl
  | cons q rest ih =>
    intro k
    obtain ⟨m, w⟩ := q
    by_cases hm : m = k
    · rw [List.map_cons, alookup, if_pos hm, alookup, if_pos hm]
      rfl
    · rw [List.map_cons, alookup, if_neg hm, alookup, if_neg hm]
      exact ih k

theorem entryForJson_wf (sn : List (String × String)) (raw : String) :
    ∀ o : Option TempData,
      entryForJson sn raw (o.map (fun td => ⟨some (TempJson.obj td)⟩)) =
        PyResult.ok (entryFor sn raw o) := by
  intro o
  cases o with
  | none => rfl
  | some td =>
    show (match parse_temperature_json (TempJson.obj td) with
      | PyResult.exn => PyResult.exn
      | PyResult.ok none => PyResult.ok []
      | PyResult.ok (some v) => PyResult.ok [(lookupName sn raw, v)]) =
      PyResult.ok (entryFor sn raw (some td))
    cases hp : parse_temperature (some td) with
    | none => simp [parse_temperature_json, hp, entryFor]
    | some v => simp [parse_temperature_json, hp, entryFor]

theorem chansJson_wf (sn : List (String × String)) (chans : List (ℕ × TempData)) :
    ∀ js : List ℕ,
      chansJson sn (chans.map (fun p => (p.1, ⟨some (TempJson.obj p.2)⟩))) js =
        PyResult.ok ((js.map (chanPart sn chans)).flatten) := by
  intro js
  induction js with
  | nil => rfl
  | cons i rest ih =>
    rw [chansJson, alookup_map_snd (fun td => (⟨some (TempJson.obj td)⟩ : SensorJson)),
      entryForJson_wf, ih, List.map_cons, List.flatten_cons]
    rfl

theorem get_current_temperatures_full_wf (sn : List (String × String))
    (d : GatewayData) :
    get_current_temperatures_full sn (some (toDataJson d)) =
      PyResult.ok (get_current_temperatures sn (some d)) := by
  unfold toDataJson get_current_temperatures_full
  dsimp only
  rw [entryForJson_wf, entryForJson_wf, chansJson_wf]
  rfl

theorem legacyLoop_partial :
    ∀ (pre : List (String × LegacyParse)) (acc : List (String × ℚ)) (n : String)
      (post : List (String × LegacyParse)),
      (∀ p ∈ pre, p.2 ≠ LegacyParse.bad) →
      legacyLoop (pre ++ (n, LegacyParse.bad) :: post) acc = legacyLoop pre acc := by
  intro pre
  induction pre with
  | nil =>
    intro acc n post _
    rfl
  | cons q rest ih =>
    intro acc n post hpre
    obtain ⟨m, pr⟩ := q
    cases pr with
    | skip =>
      show legacyLoop (rest ++ (n, LegacyParse.bad) :: post) acc = legacyLoop rest acc
      exact ih acc n post (fun p hp => hpre p (List.mem_cons_of_mem _ hp))
    | val v =>
      show legacyLoop (rest ++ (n, LegacyParse.bad) :: post) (aset acc m v) =
        legacyLoop rest (aset acc m v)
      exact ih _ n post (fun p hp => hpre p (List.mem_cons_of_mem _ hp))
    | bad =>
      exact absurd rfl (hpre (m, LegacyParse.bad) (List.mem_cons_self _ _))

/-- C5 counterexample: (a) a payload whose `data` field is a truthy
non-dict (e.g. a JSON list) makes `get_current_temperatures` raise an
uncaught AttributeError at `data.get("indoor", {})`; (b) a payload whose
indoor `temperature` field is a truthy non-dict (e.g. the bare number
68.5) makes `_parse_temperature` raise an uncaught TypeError at
`"value" not in temp_data`, which sits outside its try block; (c) the
legacy `get_ecowitt_temps` returns a PARTIAL, NON-EMPTY map when a parse
fails mid-loop after an entry was stored. Each outcome contradicts the
claim that on a failing interaction the reader returns an empty map and
never raises an exception to its caller. -/
theorem c5_counterexample :
    get_current_temperatures_full [] (some (DataJson.nonDict true)) = PyResult.exn ∧
    get_current_temperatures_full []
      (some (DataJson.obj (some ⟨some (TempJson.nonDict true)⟩) none [])) =
      PyResult.exn ∧
    get_ecowitt_temps (some "192.168.1.5") false
      [("Indoor", LegacyParse.val 68), ("Channel 2", LegacyParse.bad)] =
      [("Indoor", (68 : ℚ))] := by
  exact ⟨rfl, rfl, rfl⟩

/-- C5 (amended): failures at the request boundary (network timeout,
non-success status, JSON decode failure, cloud application error — every
path on which `_ecowitt_api_request` returns `None`) and a falsy
non-dict `data` field make `get_current_temperatures` return the empty
map without raising, and a well-formed payload is processed without
raising (the full model agrees with the well-formed one there). A
malformed payload BODY, however, splits by reader: legacy
`get_ecowitt_temps` never raises but returns the partial map accumulated
before the first failing item, while `get_current_temperatures`
propagates an uncaught exception on a schema-malformed payload. A
well-formed response that merely omits configured channel `i` (1-8) with
a parsable temperature yields exactly the same result minus that one
entry, all other present channels returned unchanged. -/
theorem c5_reader_error_paths :
    (∀ sn : List (String × String),
      get_current_temperatures_full sn none = PyResult.ok []) ∧
    (∀ sn : List (String × String),
      get_current_temperatures_full sn (some (DataJson.nonDict false)) =
        PyResult.ok []) ∧
    (∀ (sn : List (String × String)) (d : GatewayData),
      get_current_temperatures_full sn (some (toDataJson d)) =
        PyResult.ok (get_current_temperatures sn (some d))) ∧
    (∀ (ip : Option String) (items : List (String × LegacyParse)),
      get_ecowitt_temps ip true items = []) ∧
    (∀ (a : String) (pre : List (String × LegacyParse)) (n : String)
        (post : List (String × LegacyParse)),
      (∀ p ∈ pre, p.2 ≠ LegacyParse.bad) →
      get_ecowitt_temps (some a) false (pre ++ (n, LegacyParse.bad) :: post) =
        get_ecowitt_temps (some a) false pre) ∧
    (∀ (sn : List (String × String)) (d : GatewayData) (i : ℕ) (v : ℚ),
      i ∈ List.range' 1 8 →
      parse_temperature (alookup d.channels i) = some v →
      ∃ l1 l2,
        get_current_temperatures sn (some d) =
          l1 ++ [(lookupName sn ("Channel " ++ toString i), v)] ++ l2 ∧
        get_current_temperatures sn (some (removeChannel d i)) = l1 ++ l2) := by
  refine ⟨fun sn => rfl, fun sn => rfl, get_current_temperatures_full_wf, ?_, ?_, ?_⟩
  · intro ip items
    cases ip with
    | none => rfl
    | some a => rfl
  · intro a pre n post hpre
    show legacyLoop (pre ++ (n, LegacyParse.bad) :: post) [] = legacyLoop pre []
    exact legacyLoop_partial pre [] n post hpre
  · intro sn d i v hi hp
    obtain ⟨l1, l2, h1, h2⟩ :=
      joinParts_remove sn d i v hp (List.range' 1 8) (by decide) hi
    refine ⟨entryFor sn "Indoor" d.indoor ++ entryFor sn "Outdoor" d.outdoor ++ l1, l2,
      ?_, ?_⟩
    · show entryFor sn "Indoor" d.indoor ++ entryFor sn "Outdoor" d.outdoor ++
        ((List.range' 1 8).map (chanPart sn d.channels)).flatten = _
      rw [h1]
      simp [List.append_assoc]
    · show entryFor sn "Indoor" d.indoor ++ entryFor sn "Outdoor" d.outdoor ++
        ((List.range' 1 8).map (chanPart sn (removeChannel d i).channels)).flatten = _
      rw [h2]
      simp [List.append_assoc]

/-- Witness for C5 at a concrete input: the legacy reader, failing on its
second item, returns exactly the map accumulated from the first item —
the trailing item is never reached. -/
theorem c5_witness :
    get_ecowitt_temps (some "gw") false
      [("Indoor", LegacyParse.val 68), ("Basement", LegacyParse.bad),
        ("Attic", LegacyParse.val 50)] =
      get_ecowitt_temps (some "gw") false [("Indoor", LegacyParse.val 68)] :=
  c5_reader_error_paths.2.2.2.2.1 "gw" [("Indoor", LegacyParse.val 68)] "Basement"
    [("Attic", LegacyParse.val 50)] (by decide)

end TemperatureAlert
